import Mathlib

/-!
Verification development for the gemini-image-kit asset pipeline.

The Go sources are shallowly embedded: every external collaborator
(URL parser, DNS resolver, HTTP fetcher, object-storage reader, image
codec, remote File API, content sniffer) is a field of an `Env` record,
and each embedded function mirrors the corresponding Go function
statement by statement.  Machine integers that matter (the int64 seed
and its int32 wire narrowing) are modelled as `Int` with explicit
two's-complement wrapping.  The TTL cache is modelled as an association
list with explicit expiry timestamps and an explicit clock.
-/

/-- Byte payloads are lists of byte values. -/
abbrev Bytes := List Nat

/-- An IPv4 address, as the four dotted-quad components.
(The repository's validators only ever call the four `net.IP`
classification predicates; IPv6 is analogous and not needed by any claim.) -/
structure IPv4 where
  a : Nat
  b : Nat
  c : Nat
  d : Nat
deriving DecidableEq, Repr

namespace IPv4

/-- Embeds `net.IP.IsPrivate` (RFC 1918 ranges) for IPv4. -/
def isPrivate (ip : IPv4) : Bool :=
  ip.a == 10 || (ip.a == 172 && 16 ≤ ip.b && ip.b ≤ 31) || (ip.a == 192 && ip.b == 168)

/-- Embeds `net.IP.IsLoopback` for IPv4 (127.0.0.0/8). -/
def isLoopback (ip : IPv4) : Bool :=
  ip.a == 127

/-- Embeds `net.IP.IsLinkLocalUnicast` for IPv4 (169.254.0.0/16). -/
def isLinkLocalUnicast (ip : IPv4) : Bool :=
  ip.a == 169 && ip.b == 254

/-- Embeds `net.IP.IsLinkLocalMulticast` for IPv4 (224.0.0.0/24). -/
def isLinkLocalMulticast (ip : IPv4) : Bool :=
  ip.a == 224 && ip.b == 0 && ip.c == 0

/-- The disjunction both validators test on each address
(`ip.IsPrivate() || ip.IsLoopback() || ip.IsLinkLocalUnicast() || ip.IsLinkLocalMulticast()`). -/
def restricted (ip : IPv4) : Bool :=
  ip.isPrivate || ip.isLoopback || ip.isLinkLocalUnicast || ip.isLinkLocalMulticast

end IPv4

/-- The result of `url.ParseRequestURI` as far as the validators read it:
the scheme and the `Hostname()` accessor. -/
structure URLParts where
  scheme : String
  hostname : String
deriving DecidableEq, Repr

/-- A `genai.Blob` (inline data with a MIME type). -/
structure Blob where
  mimeType : String
  data : Bytes
deriving DecidableEq, Repr

/-- A `genai.Part`: the three fields this repository reads or writes
(`Text`, `InlineData`, `FileData.FileURI`). -/
structure GenPart where
  text : String := ""
  inlineData : Option Blob := none
  fileData : Option String := none
deriving DecidableEq, Repr

/-- A `genai.Candidate`: the completion status and the (nilable) content. -/
structure Candidate where
  finishReason : String
  content : Option (List GenPart)
deriving DecidableEq, Repr

/-- A `genai.GenerateContentResponse`: candidate list and prompt feedback
(`PromptFeedback.BlockReason`, nilable). -/
structure RawResponse where
  candidates : List Candidate
  promptFeedback : Option String := none
deriving DecidableEq, Repr

/-- A `gemini.Response` wrapper (its `RawResponse` pointer is nilable). -/
structure GeminiResponse where
  rawResponse : Option RawResponse
deriving DecidableEq, Repr

/-- The parsed image result (`ImageOutput` in both packages). -/
structure ImageOutput where
  data : Bytes
  mimeType : String
  usedSeed : Int
deriving DecidableEq, Repr

/-- Embeds `domain.ImageResponse` returned to callers. -/
structure ImageResponse where
  data : Bytes
  mimeType : String
  usedSeed : Int
deriving DecidableEq, Repr

/-- The constant `genai.FinishReasonStop`. -/
def finishReasonStop : String := "STOP"

/-- The constant `genai.FinishReasonUnspecified`. -/
def finishReasonUnspecified : String := "FINISH_REASON_UNSPECIFIED"

/-- A dynamically typed cache value (`any` in Go): the pipeline stores
byte slices and strings; anything else is a foreign type. -/
inductive GoVal where
  | bytes (b : Bytes)
  | str (s : String)
  | other
deriving DecidableEq, Repr

/-- The TTL cache: an association list of key, value and absolute expiry
instant; a fresh `Set` shadows older entries for the same key. -/
abbrev Cache := List (String × GoVal × Nat)

/-- Embeds `cache.Get(key)` at clock instant `now`: the most recent entry for the
key, provided it has not expired. -/
def cacheGet : Cache → Nat → String → Option GoVal
  | [], _, _ => none
  | (k, v, e) :: rest, now, key =>
      if k = key then (if now < e then some v else none) else cacheGet rest now key

/-- Embeds `cache.Set(key, value, ttl)` at clock instant `now`. -/
def cacheSet (c : Cache) (now ttl : Nat) (key : String) (v : GoVal) : Cache :=
  (key, v, now + ttl) :: c

/-- Go's `strings.HasPrefix`, computed on the underlying character lists
so that concrete instances reduce by `decide`. -/
def goHasPrefix (s pre : String) : Bool :=
  pre.data.isPrefixOf s.data

/-- The external collaborators consumed by the pipeline, as one record:
URL parsing and DNS (net/url, net), the HTTP byte fetcher, the
object-storage reader, the JPEG transcoder, content sniffing
(`http.DetectContentType`), `filepath.Base`, and the remote File API. -/
structure Env where
  parseRequestURI : String → Option URLParts
  lookupIP : String → Except String (List IPv4)
  parseIP : String → Option IPv4
  detectContentType : Bytes → String
  fetchBytes : String → Except String Bytes
  gcsRead : String → Except String Bytes
  compress : Bytes → Nat → Except String Bytes
  baseName : String → String
  uploadRemote : Bytes → String → String → Except String (String × String)
  deleteRemote : String → Except String Unit

namespace GeneratorUtil

/-- Embeds `IsSafeURL` from `pkg/generator/util.go` (lines 12-38):
parse; accept `gs` structurally; restrict the scheme to http/https;
resolve the hostname; reject if any resolved address is private,
loopback, or link-local; otherwise accept. -/
def IsSafeURL (env : Env) (rawURL : String) : Except String Bool :=
  match env.parseRequestURI rawURL with
  | none => .error "URL parse failure"
  | some parsedURL =>
    if parsedURL.scheme = "gs" then .ok true
    else if parsedURL.scheme ≠ "http" ∧ parsedURL.scheme ≠ "https" then
      .error ("disallowed scheme: " ++ parsedURL.scheme)
    else
      match env.lookupIP parsedURL.hostname with
      | .error _ => .error ("name resolution failed for host " ++ parsedURL.hostname)
      | .ok ips =>
        match ips.find? (fun ip => ip.restricted) with
        | some _ => .error "access to a restricted network detected"
        | none => .ok true

end GeneratorUtil

namespace Adapters

/-- Embeds `isSafeURL` from `pkg/adapters/core.go` (lines 148-180):
parse; restrict the scheme to http/https; if the host is an IP literal
check it directly, otherwise resolve and check only `ips[0]`. -/
def isSafeURL (env : Env) (rawURL : String) : Except String Bool :=
  match env.parseRequestURI rawURL with
  | none => .error "URL parse failure"
  | some parsedURL =>
    if parsedURL.scheme ≠ "http" ∧ parsedURL.scheme ≠ "https" then
      .error ("disallowed scheme: " ++ parsedURL.scheme)
    else
      let host := parsedURL.hostname
      let ipRes : Except String IPv4 :=
        match env.parseIP host with
        | some ip => .ok ip
        | none =>
          match env.lookupIP host with
          | .error _ => .error "name resolution of the host failed"
          | .ok ips =>
            match ips with
            | [] => .error "no IP address found"
            | ip0 :: _ => .ok ip0
      match ipRes with
      | .error e => .error e
      | .ok ip =>
        if ip.restricted then .error "access to a private or restricted network is forbidden"
        else .ok true

/-- Embeds `ToPart` from `pkg/adapters/core.go` (lines 85-97); the same
function appears verbatim as `ToPart`/`toPart` in `pkg/generator/core.go`
(lines 77-88) and in `src/unnamed/part_010`: sniff the content type and
convert to an inline part only when it begins with `image/`. -/
def ToPart (env : Env) (data : Bytes) : Option GenPart :=
  let mimeType := env.detectContentType data
  if ¬ goHasPrefix mimeType "image/" then none
  else some { text := "", inlineData := some ⟨mimeType, data⟩, fileData := none }

/-- Scans a candidate's parts the way `pkg/adapters/core.go` lines 109-119 do:
the first part whose `InlineData` is non-nil and has non-empty bytes. -/
def scanInlineNonEmpty (content : Option (List GenPart)) : Option Blob :=
  match content with
  | none => none
  | some parts =>
    parts.findSome? (fun p =>
      match p.inlineData with
      | some b => if b.data.length > 0 then some b else none
      | none => none)

/-- Embeds `ParseToResponse` from `pkg/adapters/core.go` (lines 100-134):
nil/empty wrapper checks, then a scan of candidate[0]'s parts for inline
image bytes, then the prompt-feedback check, then the finish-reason
check, and finally a no-image error. -/
def ParseToResponse (resp : Option GeminiResponse) (seed : Int) :
    Except String ImageOutput :=
  match resp with
  | none => .error "no valid response from Gemini"
  | some r =>
  match r.rawResponse with
  | none => .error "no valid response from Gemini"
  | some raw =>
  match raw.candidates with
  | [] => .error "no valid response from Gemini"
  | candidate :: _ =>
    match scanInlineNonEmpty candidate.content with
    | some blob => .ok ⟨blob.data, blob.mimeType, seed⟩
    | none =>
      let blocked : Option String :=
        match raw.promptFeedback with
        | some reason => if reason ≠ "" then some reason else none
        | none => none
      match blocked with
      | some reason => .error ("prompt was blocked, reason: " ++ reason)
      | none =>
        if candidate.finishReason ≠ finishReasonUnspecified ∧
            candidate.finishReason ≠ finishReasonStop then
          .error ("image generation ended abnormally, reason: " ++ candidate.finishReason)
        else .error "no image data found"

/-- Embeds `seedToInt64` from `pkg/adapters/core.go` (lines 138-145):
widen the int32 wire seed back to int64, with nil mapping to 0. -/
def seedToInt64 (seed : Option Int) : Int :=
  match seed with
  | some v => v
  | none => 0

/-- Embeds `PrepareImagePart` from `pkg/adapters/core.go` (lines 55-82),
split after the guarded cache read; mirrors the code from the
SSRF validation through the cache write.  Returns the produced part and
the cache that results. -/
def prepareFetchPath (env : Env) (now ttl : Nat) (c : Cache) (url : String) :
    Option GenPart × Cache :=
  match Adapters.isSafeURL env url with
  | .ok true =>
    match env.fetchBytes url with
    | .error _ => (none, c)
    | .ok imgBytes =>
      (ToPart env imgBytes, cacheSet c now ttl url (.bytes imgBytes))
  | _ => (none, c)

/-- Embeds `PrepareImagePart` from `pkg/adapters/core.go` (lines 55-82):
a guarded cache read (type-asserting `[]byte`, warning and falling
through otherwise), then validation, fetch, cache write and conversion
(`prepareFetchPath`). -/
def PrepareImagePart (env : Env) (now ttl : Nat) (c : Cache) (url : String) :
    Option GenPart × Cache :=
  match cacheGet c now url with
  | some (.bytes data) => (ToPart env data, c)
  | some _ => prepareFetchPath env now ttl c url
  | none => prepareFetchPath env now ttl c url

/-- Embeds the part-assembly loop of `GenerateMangaPage` from
`pkg/adapters/manga.go` (lines 36-60): the text part first, then for each
reference URL skip empty strings, delegate to `PrepareImagePart`, and on
nil drop the reference silently. -/
def assembleParts (env : Env) (now ttl : Nat) (c : Cache) (urls : List String) :
    List GenPart × Cache :=
  match urls with
  | [] => ([], c)
  | url :: rest =>
    if url = "" then assembleParts env now ttl c rest
    else
      match PrepareImagePart env now ttl c url with
      | (none, c') => assembleParts env now ttl c' rest
      | (some p, c') =>
        let (ps, c'') := assembleParts env now ttl c' rest
        (p :: ps, c'')

/-- The parts sent by `GenerateMangaPage` (`pkg/adapters/manga.go`):
the prompt text part followed by the assembled image parts. -/
def mangaPageParts (env : Env) (now ttl : Nat) (c : Cache)
    (prompt : String) (urls : List String) : List GenPart × Cache :=
  let (imgs, c') := assembleParts env now ttl c urls
  ({ text := prompt } :: imgs, c')

end Adapters

/-- How `ParseToResponse` in `pkg/generator/core.go` lines 91-117 can end:
normally, with a Go error, or with a runtime panic (nil dereference). -/
inductive ParseOutcome where
  | crashed
  | failed (msg : String)
  | parsed (out : ImageOutput)
deriving DecidableEq, Repr

namespace GenCore

/-- Embeds the stub `isSafeURL` from `pkg/generator/core.go` (lines 119-126):
a plain scheme-prefix check. -/
def isSafeURL (urlStr : String) : Bool :=
  goHasPrefix urlStr "http://" || goHasPrefix urlStr "https://"

/-- Embeds `ParseToResponse` from `pkg/generator/core.go` (lines 91-117):
nil/empty checks, then the finish-reason halt check, then a scan of
candidate[0]'s parts.  This variant ranges over `candidate.Content.Parts`
without a nil check on `Content`, so a nil content is a nil-pointer
dereference (`ParseOutcome.crashed`). -/
def ParseToResponse (resp : Option GeminiResponse) (seed : Int) : ParseOutcome :=
  match resp with
  | none => .failed "empty response from Gemini"
  | some r =>
  match r.rawResponse with
  | none => .failed "empty response from Gemini"
  | some raw =>
  match raw.candidates with
  | [] => .failed "no candidates in response"
  | candidate :: _ =>
    if candidate.finishReason ≠ finishReasonStop ∧
        candidate.finishReason ≠ finishReasonUnspecified then
      .failed ("generation failed with FinishReason: " ++ candidate.finishReason)
    else
      match candidate.content with
      | none => .crashed
      | some parts =>
        match parts.findSome? (fun p => p.inlineData) with
        | some b => .parsed ⟨b.data, b.mimeType, seed⟩
        | none => .failed "no image data found in response parts"

/-- The validate-then-fetch continuation of `PrepareImagePart` from
`pkg/generator/core.go` (lines 57-73): SSRF check, download, cache write,
conversion. -/
def prepareFetchPath (env : Env) (now ttl : Nat) (cache : Option Cache)
    (url : String) : Option GenPart × Option Cache :=
  if ¬ isSafeURL url then (none, cache)
  else
    match env.fetchBytes url with
    | .error _ => (none, cache)
    | .ok data =>
      let cache' :=
        match cache with
        | some c => some (cacheSet c now ttl url (.bytes data))
        | none => none
      (Adapters.ToPart env data, cache')

/-- Embeds `PrepareImagePart` from `pkg/generator/core.go` (lines 47-74):
a guarded cache read (type-asserting `[]byte`), then `prepareFetchPath`. -/
def PrepareImagePart (env : Env) (now ttl : Nat) (cache : Option Cache)
    (url : String) : Option GenPart × Option Cache :=
  match cache with
  | some c =>
    match cacheGet c now url with
    | some (.bytes data) => (Adapters.ToPart env data, cache)
    | some _ => prepareFetchPath env now ttl cache url
    | none => prepareFetchPath env now ttl cache url
  | none => prepareFetchPath env now ttl cache url

end GenCore

/-- Embeds `dereferenceSeed` from `pkg/generator/util.go` (lines 41-46):
dereference the int64 seed pointer, nil mapping to 0. -/
def dereferenceSeed (seed : Option Int) : Int :=
  match seed with
  | none => 0
  | some v => v

/-- Two's-complement narrowing of an int64 value to int32 range. -/
def wrapInt32 (v : Int) : Int :=
  (v + 2 ^ 31) % 2 ^ 32 - 2 ^ 31

/-- Modelled from the spec: `seedToPtrInt32` (its definition is not under
src/, only its tests and call sites are) narrows the int64 seed pointer
to the int32 wire type for the outbound request; per the spec,
"seed is narrowed to a smaller wire type outbound" and "out-of-range
seeds truncate on the outbound leg only" (two's-complement wrap),
with nil mapping to nil as its test pins. -/
def seedToPtrInt32 (seed : Option Int) : Option Int :=
  match seed with
  | none => none
  | some v => some (wrapInt32 v)

/-- An observable remote-side effect of the asset registration lifecycle. -/
inductive Effect where
  | fetch (uri : String)
  | compressStep
  | uploadRemote (mime displayName : String)
  | deleteRemote (name : String)
deriving DecidableEq, Repr

/-- The cache-key prefix `cacheKeyFileAPIURI` from `src/unnamed/part_010`. -/
def cacheKeyFileAPIURI : String := "fileapi_uri:"

/-- The cache-key prefix `cacheKeyFileAPIName` from `src/unnamed/part_010`. -/
def cacheKeyFileAPIName : String := "fileapi_name:"

namespace FileCore

/-- Embeds `fetchImageData` from `src/unnamed/part_010` (lines 208-214):
dispatch on the `gs://` prefix to the object-storage reader, otherwise
to the HTTP fetcher. -/
def fetchImageData (env : Env) (rawURL : String) : Except String Bytes :=
  if goHasPrefix rawURL "gs://" then env.gcsRead rawURL
  else env.fetchBytes rawURL

/-- The compression step of `src/unnamed/part_010` (`UseImageCompression`
is true there, `ImageCompressionQuality` is 75): on a decode/encode
failure the original bytes are used. -/
def compressOrOriginal (env : Env) (data : Bytes) : Bytes :=
  match env.compress data 75 with
  | .ok compressed => compressed
  | .error _ => data

/-- Embeds `UploadFile` from `src/unnamed/part_010` (lines 81-131):
check the handle cache; on a hit return the cached URI with no remote
work; on a miss fetch, compress, sniff, upload, and cache both the
handle URI and the internal deletion name.  The effect trace records the
remote-side work performed. -/
def UploadFile (env : Env) (now ttl : Nat) (cache : Option Cache)
    (fileURI : String) : Except String String × Option Cache × List Effect :=
  let cacheKeyURI := cacheKeyFileAPIURI ++ fileURI
  let hit : Option String :=
    match cache with
    | some c =>
      match cacheGet c now cacheKeyURI with
      | some (.str uri) => some uri
      | _ => none
    | none => none
  match hit with
  | some uri => (.ok uri, cache, [])
  | none =>
    match fetchImageData env fileURI with
    | .error e => (.error ("failed to fetch source data: " ++ e), cache, [.fetch fileURI])
    | .ok data =>
      let finalData := compressOrOriginal env data
      let mimeType := env.detectContentType finalData
      let displayName := env.baseName fileURI
      match env.uploadRemote finalData mimeType displayName with
      | .error e =>
        (.error ("upload to the Gemini File API failed: " ++ e), cache,
          [.fetch fileURI, .compressStep, .uploadRemote mimeType displayName])
      | .ok (uri, fileName) =>
        let cache' :=
          match cache with
          | some c =>
            some (cacheSet (cacheSet c now ttl cacheKeyURI (.str uri)) now ttl
              (cacheKeyFileAPIName ++ fileURI) (.str fileName))
          | none => none
        (.ok uri, cache',
          [.fetch fileURI, .compressStep, .uploadRemote mimeType displayName])

/-- Embeds `DeleteFile` from `src/unnamed/part_010` (lines 134-147):
start from `targetName := fileURI`; if the cache holds the managed name
prefer it; then issue the remote delete with `targetName`. -/
def DeleteFile (env : Env) (now : Nat) (cache : Option Cache)
    (fileURI : String) : Except String Unit × List Effect :=
  let targetName :=
    match cache with
    | some c =>
      match cacheGet c now (cacheKeyFileAPIName ++ fileURI) with
      | some (.str name) => name
      | _ => fileURI
    | none => fileURI
  (env.deleteRemote targetName, [.deleteRemote targetName])

/-- The continuation of `prepareImagePart` from `src/unnamed/part_010`
after both cache namespaces miss (lines 181-204): fetch, compress,
cache the bytes, convert. -/
def prepareFetchPath (env : Env) (now ttl : Nat) (cache : Option Cache)
    (rawURL : String) : Option GenPart × Option Cache :=
  match fetchImageData env rawURL with
  | .error _ => (none, cache)
  | .ok data =>
    let finalData := compressOrOriginal env data
    let cache' :=
      match cache with
      | some c => some (cacheSet c now ttl rawURL (.bytes finalData))
      | none => none
    (Adapters.ToPart env finalData, cache')

/-- The inline-bytes cache step of `prepareImagePart` from
`src/unnamed/part_010` (lines 172-179 then 181-204). -/
def prepareInlineStep (env : Env) (now ttl : Nat) (cache : Option Cache)
    (rawURL : String) : Option GenPart × Option Cache :=
  match cache with
  | some c =>
    match cacheGet c now rawURL with
    | some (.bytes data) => (Adapters.ToPart env data, cache)
    | _ => prepareFetchPath env now ttl cache rawURL
  | none => prepareFetchPath env now ttl cache rawURL

/-- Embeds `prepareImagePart` from `src/unnamed/part_010` (lines 150-205):
SSRF check first, then the File API handle cache (a `string` type
assertion guarding the entry), then the inline-bytes cache (a `[]byte`
type assertion), then fetch/compress/cache/convert. -/
def prepareImagePart (env : Env) (now ttl : Nat) (cache : Option Cache)
    (rawURL : String) : Option GenPart × Option Cache :=
  match GeneratorUtil.IsSafeURL env rawURL with
  | .ok true =>
    match cache with
    | some c =>
      match cacheGet c now (cacheKeyFileAPIURI ++ rawURL) with
      | some (.str uri) =>
        (some { text := "", inlineData := none, fileData := some uri }, cache)
      | _ => prepareInlineStep env now ttl cache rawURL
    | none => prepareInlineStep env now ttl cache rawURL
  | _ => (none, cache)

end FileCore

namespace PanelGen

/-- The generation options (`gemini.ImageOptions`) as `GenerateMangaPanel`
in `src/unnamed/part_007` builds them (lines 164-167): the aspect ratio
and the seed narrowed to the int32 wire type by `seedToPtrInt32`. -/
structure ImageOptions where
  aspectRatio : String
  seed : Option Int
deriving DecidableEq, Repr

/-- Embeds `domain.ImageGenerationRequest` as read by `GenerateMangaPanel`
(prompt, reference URL, aspect ratio, int64 seed pointer). -/
structure ImageGenerationRequest where
  prompt : String
  referenceURL : String
  aspectRatio : String
  seed : Option Int
deriving DecidableEq, Repr

/-- The outbound options built at `src/unnamed/part_007` lines 164-167. -/
def panelOptions (req : ImageGenerationRequest) : ImageOptions :=
  { aspectRatio := req.aspectRatio, seed := seedToPtrInt32 req.seed }

/-- How `GenerateMangaPanel` can end, given that the core's
`ParseToResponse` (pkg/generator/core.go lines 91-117) can crash. -/
inductive PanelResult where
  | crashed
  | failed (msg : String)
  | ok (resp : ImageResponse)
deriving DecidableEq, Repr

/-- Embeds `GenerateMangaPanel` from `src/unnamed/part_007` (lines 155-184):
assemble the text part plus an optional reference-image part, build the
options with the narrowed seed, call the generative model, and parse the
response with the dereferenced (int64) requested seed; the parsed
`UsedSeed` is copied into the returned `ImageResponse`.  The request
parts are assembled at lines 156-162: the prompt text part, plus the
optional reference-image part when the reference URL is non-empty and
preparation succeeds. -/
def panelParts (env : Env) (now ttl : Nat) (cache : Option Cache)
    (req : ImageGenerationRequest) : List GenPart × Option Cache :=
  let parts0 : List GenPart := [{ text := req.prompt }]
  if req.referenceURL ≠ "" then
    match GenCore.PrepareImagePart env now ttl cache req.referenceURL with
    | (some imgPart, c') => (parts0 ++ [imgPart], c')
    | (none, c') => (parts0, c')
  else (parts0, cache)

/-- The remainder of `GenerateMangaPanel` (`src/unnamed/part_007` lines
164-183): build the options with the narrowed seed, call the generative
model (the collaborator `generateWithParts`), and parse the response
with the dereferenced (int64) requested seed; the core is instantiated
with `GenCore.PrepareImagePart` and `GenCore.ParseToResponse`. -/
def GenerateMangaPanel (env : Env)
    (generateWithParts : List GenPart → ImageOptions → Except String (Option GeminiResponse))
    (now ttl : Nat) (cache : Option Cache) (req : ImageGenerationRequest) :
    PanelResult × Option Cache :=
  let (parts, cache1) := panelParts env now ttl cache req
  match generateWithParts parts (panelOptions req) with
  | .error e => (.failed ("Gemini panel generation error: " ++ e), cache1)
  | .ok resp =>
    match GenCore.ParseToResponse resp (dereferenceSeed req.seed) with
    | .crashed => (.crashed, cache1)
    | .failed e => (.failed e, cache1)
    | .parsed out =>
      (.ok { data := out.data, mimeType := out.mimeType, usedSeed := out.usedSeed }, cache1)

end PanelGen

/-- Whether a dynamically typed cache value is a byte slice. -/
def GoVal.isBytes : GoVal → Bool
  | .bytes _ => true
  | _ => false

/-- Whether a dynamically typed cache value is a string. -/
def GoVal.isStr : GoVal → Bool
  | .str _ => true
  | _ => false

/-- The number of remote uploads in an effect trace. -/
def countUploads (effs : List Effect) : Nat :=
  effs.countP (fun e =>
    match e with
    | .uploadRemote _ _ => true
    | _ => false)

/-- A baseline environment in which every collaborator fails or is inert;
concrete scenarios override individual fields. -/
def envDefault : Env where
  parseRequestURI := fun _ => none
  lookupIP := fun _ => .error "no such host"
  parseIP := fun _ => none
  detectContentType := fun _ => "application/octet-stream"
  fetchBytes := fun _ => .error "unreachable"
  gcsRead := fun _ => .error "unreachable"
  compress := fun _ _ => .error "not an image"
  baseName := fun s => s
  uploadRemote := fun _ _ _ => .error "upload failed"
  deleteRemote := fun _ => .ok ()

/-- A DNS world in which `multi.example` resolves to two addresses, a
public one first and the loopback address second. -/
def envMulti : Env :=
  { envDefault with
    parseRequestURI := fun s =>
      if s = "http://multi.example/a.png" then some ⟨"http", "multi.example"⟩ else none
    lookupIP := fun h =>
      if h = "multi.example" then .ok [⟨93, 184, 216, 34⟩, ⟨127, 0, 0, 1⟩]
      else .error "no such host" }

/-- A world for the URL-scheme witnesses: a parseable `gs` URI and a
parseable `ftp` URL. -/
def envScheme : Env :=
  { envDefault with
    parseRequestURI := fun s =>
      if s = "gs://bucket/img.png" then some ⟨"gs", ""⟩
      else if s = "ftp://host/x" then some ⟨"ftp", "host"⟩
      else none }

/-- A world for the safety-validator witnesses: `pub.example` resolves to
one public address, `priv.example` to one private address. -/
def envResolve : Env :=
  { envDefault with
    parseRequestURI := fun s =>
      if s = "http://pub.example/a" then some ⟨"http", "pub.example"⟩
      else if s = "http://priv.example/a" then some ⟨"http", "priv.example"⟩
      else none
    lookupIP := fun h =>
      if h = "pub.example" then .ok [⟨93, 184, 216, 34⟩]
      else if h = "priv.example" then .ok [⟨10, 0, 0, 5⟩]
      else .error "no such host" }

/-- A world in which fetching succeeds and the bytes sniff as text. -/
def envText : Env :=
  { envDefault with detectContentType := fun _ => "text/plain; charset=utf-8" }

/-- A world in which `http://img.example/a` validates, fetches two bytes
and sniffs as `image/png`. -/
def envImg : Env :=
  { envDefault with
    parseRequestURI := fun s =>
      if s = "http://img.example/a" then some ⟨"http", "img.example"⟩ else none
    lookupIP := fun h =>
      if h = "img.example" then .ok [⟨93, 184, 216, 34⟩] else .error "no such host"
    detectContentType := fun _ => "image/png"
    fetchBytes := fun u => if u = "http://img.example/a" then .ok [1, 2] else .error "unreachable" }

/-- A world for the batch-assembly witness: `a.example` and `c.example`
parse and resolve to a public address and their fetches sniff as images;
`http://b.example/2` does not parse, so the validator rejects it. -/
def envC6 : Env :=
  { envDefault with
    parseRequestURI := fun s =>
      if s = "http://a.example/1" then some ⟨"http", "a.example"⟩
      else if s = "http://c.example/3" then some ⟨"http", "c.example"⟩
      else none
    lookupIP := fun h =>
      if h = "a.example" then .ok [⟨93, 184, 216, 34⟩]
      else if h = "c.example" then .ok [⟨93, 184, 216, 34⟩]
      else .error "no such host"
    detectContentType := fun _ => "image/png"
    fetchBytes := fun _ => .ok [3] }

/-- A world for the upload lifecycle: the fetch returns one byte, the
compressor fails (so the original bytes are kept), the sniff reports
`image/png`, and the remote upload returns a handle/name pair. -/
def envUpload : Env :=
  { envDefault with
    fetchBytes := fun _ => .ok [7]
    detectContentType := fun _ => "image/png"
    uploadRemote := fun _ _ _ => .ok ("https://files/abc", "files/abc-name") }

section Theorems

/-- Helper: a successful `ToPart` carries a sniffed `image/` MIME type. -/
theorem toPart_inline_mime (env : Env) (data : Bytes) (p : GenPart) (b : Blob)
    (hp : Adapters.ToPart env data = some p) (hb : p.inlineData = some b) :
    goHasPrefix b.mimeType "image/" = true := by
  unfold Adapters.ToPart at hp
  by_cases h : goHasPrefix (env.detectContentType data) "image/"
  · simp [h] at hp
    subst hp
    simp at hb
    subst hb
    exact h
  · simp [h] at hp

/-- C9: a parsed URI whose scheme is `gs` is accepted by the generator's
`IsSafeURL` in every environment (hence independently of the resolver
and with no address checks), and a parsed URL whose scheme is neither
`http`, `https` nor `gs` is rejected. -/
theorem c9_gs_structurally_trusted :
    (∀ (env : Env) (rawURL : String) (u : URLParts),
      env.parseRequestURI rawURL = some u → u.scheme = "gs" →
      GeneratorUtil.IsSafeURL env rawURL = .ok true) ∧
    (∀ (env : Env) (rawURL : String) (u : URLParts),
      env.parseRequestURI rawURL = some u →
      u.scheme ≠ "http" → u.scheme ≠ "https" → u.scheme ≠ "gs" →
      ∃ msg, GeneratorUtil.IsSafeURL env rawURL = .error msg) := by
  constructor
  · intro env rawURL u hparse hgs
    unfold GeneratorUtil.IsSafeURL
    rw [hparse]
    simp [hgs]
  · intro env rawURL u hparse hhttp hhttps hgs
    unfold GeneratorUtil.IsSafeURL
    rw [hparse]
    simp [hgs, hhttp, hhttps]

/-- C9 witness: the gs URI is accepted, the ftp URL is rejected, in the
concrete `envScheme` world. -/
theorem c9_witness :
    GeneratorUtil.IsSafeURL envScheme "gs://bucket/img.png" = .ok true ∧
    ∃ msg, GeneratorUtil.IsSafeURL envScheme "ftp://host/x" = .error msg :=
  ⟨c9_gs_structurally_trusted.1 envScheme "gs://bucket/img.png" ⟨"gs", ""⟩ rfl rfl,
   c9_gs_structurally_trusted.2 envScheme "ftp://host/x" ⟨"ftp", "host"⟩ rfl
     (by decide) (by decide) (by decide)⟩

/-- C2 counterexample: the adapters' `ParseToResponse` scans content
before the halt-check, so a candidate halted with status `SAFETY` that
carries an inline-image part yields an `ImageOutput`, not a
`GenerationHalted` error. -/
theorem c2_counterexample :
    Adapters.ParseToResponse
      (some ⟨some ⟨[⟨"SAFETY",
        some [{ text := "", inlineData := some ⟨"image/png", [255, 216]⟩, fileData := none }]⟩],
        none⟩⟩) 42 =
      .ok ⟨[255, 216], "image/png", 42⟩ := rfl

/-- C2 amended: the generator's `ParseToResponse` performs the halt-check
before the content-scan — any first candidate with a status other than
stop/unspecified yields an error carrying the raw status string, whatever
its content — while the adapters' `ParseToResponse` scans content first,
so a first candidate with a non-empty inline-image part yields that
image output regardless of its completion status. -/
theorem c2_amended :
    (∀ (pf : Option String) (candidate : Candidate) (rest : List Candidate) (seed : Int),
      candidate.finishReason ≠ finishReasonStop →
      candidate.finishReason ≠ finishReasonUnspecified →
      GenCore.ParseToResponse (some ⟨some ⟨candidate :: rest, pf⟩⟩) seed =
        .failed ("generation failed with FinishReason: " ++ candidate.finishReason)) ∧
    (∀ (pf : Option String) (candidate : Candidate) (rest : List Candidate)
        (seed : Int) (blob : Blob),
      Adapters.scanInlineNonEmpty candidate.content = some blob →
      Adapters.ParseToResponse (some ⟨some ⟨candidate :: rest, pf⟩⟩) seed =
        .ok ⟨blob.data, blob.mimeType, seed⟩) := by
  constructor
  · intro pf candidate rest seed hstop hunspec
    simp [GenCore.ParseToResponse, hstop, hunspec]
  · intro pf candidate rest seed blob hscan
    simp [Adapters.ParseToResponse, hscan]

/-- C2 witness: the amended statement at a concrete halted-with-image
response, for both interpreters. -/
theorem c2_witness :
    GenCore.ParseToResponse
      (some ⟨some ⟨[⟨"SAFETY",
        some [{ text := "", inlineData := some ⟨"image/png", [255, 216]⟩, fileData := none }]⟩],
        none⟩⟩) 42 =
      .failed ("generation failed with FinishReason: " ++ "SAFETY") ∧
    Adapters.ParseToResponse
      (some ⟨some ⟨[⟨"SAFETY",
        some [{ text := "", inlineData := some ⟨"image/png", [255, 216]⟩, fileData := none }]⟩],
        none⟩⟩) 42 =
      .ok ⟨[255, 216], "image/png", 42⟩ :=
  ⟨c2_amended.1 none _ [] 42 (by decide) (by decide),
   c2_amended.2 none _ [] 42 ⟨"image/png", [255, 216]⟩ rfl⟩

/-- C8: the cited `ParseToResponse` (pkg/generator/core.go lines 91-117)
ranges over `candidate.Content.Parts` without a nil check, so a stopped
candidate with nil content is a nil-pointer dereference rather than an
EmptyResponse error (the sister variants in the same file return
"no content found in candidate" here). -/
theorem c8_nil_content_crashes :
    GenCore.ParseToResponse (some ⟨some ⟨[⟨finishReasonStop, none⟩], none⟩⟩) 7 =
      .crashed := rfl

/-- C4: `DeleteFile` with no live internalName cache entry does not fail;
it falls back to using the source URI itself as the deletion target and
issues the remote delete (the repository's own test demands the
classified error "cannot determine file name for deletion" instead). -/
theorem c4_delete_falls_back_to_source_uri :
    cacheGet [] 0 (cacheKeyFileAPIName ++ "files/raw-id") = none ∧
    FileCore.DeleteFile envDefault 0 (some []) "files/raw-id" =
      (.ok (), [.deleteRemote "files/raw-id"]) :=
  ⟨rfl, rfl⟩

/-- Helper: a part produced by the adapters' validate-then-fetch path
carries a sniffed `image/` MIME type. -/
theorem fetchPath_inline_mime (env : Env) (now ttl : Nat) (c : Cache) (url : String)
    (p : GenPart) (c' : Cache) (b : Blob)
    (h : Adapters.prepareFetchPath env now ttl c url = (some p, c'))
    (hb : p.inlineData = some b) : goHasPrefix b.mimeType "image/" = true := by
  unfold Adapters.prepareFetchPath at h
  cases hsafe : Adapters.isSafeURL env url with
  | error e => simp [hsafe] at h
  | ok bv =>
    cases bv with
    | false => simp [hsafe] at h
    | true =>
      cases hfetch : env.fetchBytes url with
      | error e => simp [hsafe, hfetch] at h
      | ok data =>
        simp [hsafe, hfetch] at h
        exact toPart_inline_mime env data p b h.1 hb

/-- C5: a byte payload whose sniffed content type does not begin with
`image/` yields no part from `ToPart`, and every inline part produced by
the adapters' `PrepareImagePart` — whether from the cache-read bytes or
from a fresh fetch — carries a sniffed `image/` MIME type. -/
theorem c5_non_image_never_inline :
    (∀ (env : Env) (data : Bytes),
      goHasPrefix (env.detectContentType data) "image/" = false →
      Adapters.ToPart env data = none) ∧
    (∀ (env : Env) (now ttl : Nat) (c : Cache) (url : String)
        (p : GenPart) (c' : Cache) (b : Blob),
      Adapters.PrepareImagePart env now ttl c url = (some p, c') →
      p.inlineData = some b → goHasPrefix b.mimeType "image/" = true) := by
  constructor
  · intro env data h
    simp [Adapters.ToPart, h]
  · intro env now ttl c url p c' b hprep hb
    unfold Adapters.PrepareImagePart at hprep
    cases hget : cacheGet c now url with
    | none =>
      rw [hget] at hprep
      exact fetchPath_inline_mime env now ttl c url p c' b hprep hb
    | some v =>
      cases v with
      | bytes data =>
        rw [hget] at hprep
        simp at hprep
        exact toPart_inline_mime env data p b hprep.1 hb
      | str s =>
        rw [hget] at hprep
        exact fetchPath_inline_mime env now ttl c url p c' b hprep hb
      | other =>
        rw [hget] at hprep
        exact fetchPath_inline_mime env now ttl c url p c' b hprep hb

/-- C5 witness: text bytes produce no part; a fetched part's blob in the
concrete `envImg` world sniffs as an image. -/
theorem c5_witness :
    Adapters.ToPart envText [104] = none ∧
    goHasPrefix (⟨"image/png", [1, 2]⟩ : Blob).mimeType "image/" = true :=
  ⟨c5_non_image_never_inline.1 envText [104] (by decide),
   c5_non_image_never_inline.2 envImg 0 10 [] "http://img.example/a"
     { text := "", inlineData := some ⟨"image/png", [1, 2]⟩, fileData := none }
     (cacheSet [] 0 10 "http://img.example/a" (.bytes [1, 2]))
     ⟨"image/png", [1, 2]⟩ (by decide) rfl⟩

/-- C1 counterexample: `multi.example` resolves to a public address first
and the loopback address second, yet the adapters' `isSafeURL` accepts
the URL — it checks only the first resolved address. -/
theorem c1_counterexample :
    envMulti.lookupIP "multi.example" = .ok [⟨93, 184, 216, 34⟩, ⟨127, 0, 0, 1⟩] ∧
    (⟨127, 0, 0, 1⟩ : IPv4).isLoopback = true ∧
    Adapters.isSafeURL envMulti "http://multi.example/a.png" = .ok true :=
  ⟨rfl, rfl, rfl⟩

/-- C1 amended: the generator's `IsSafeURL` accepts a parsed http/https
URL with a successful resolution exactly when every resolved address is
unrestricted (in particular a successful zero-address resolution is
accepted), and rejects when resolution fails; the adapters' `isSafeURL`
rejects a failed or zero-address resolution but checks only the first
resolved address, accepting exactly when that first address is
unrestricted, whatever the later addresses are. -/
theorem c1_amended :
    (∀ (env : Env) (rawURL : String) (u : URLParts) (ips : List IPv4),
      env.parseRequestURI rawURL = some u →
      u.scheme = "http" ∨ u.scheme = "https" →
      env.lookupIP u.hostname = .ok ips →
      (GeneratorUtil.IsSafeURL env rawURL = .ok true ↔
        ∀ ip ∈ ips, ip.restricted = false)) ∧
    (∀ (env : Env) (rawURL : String) (u : URLParts) (msg : String),
      env.parseRequestURI rawURL = some u →
      u.scheme = "http" ∨ u.scheme = "https" →
      env.lookupIP u.hostname = .error msg →
      ∃ m, GeneratorUtil.IsSafeURL env rawURL = .error m) ∧
    (∀ (env : Env) (rawURL : String) (u : URLParts) (ip : IPv4) (rest : List IPv4),
      env.parseRequestURI rawURL = some u →
      u.scheme = "http" ∨ u.scheme = "https" →
      env.parseIP u.hostname = none →
      env.lookupIP u.hostname = .ok (ip :: rest) →
      (Adapters.isSafeURL env rawURL = .ok true ↔ ip.restricted = false)) ∧
    (∀ (env : Env) (rawURL : String) (u : URLParts),
      env.parseRequestURI rawURL = some u →
      u.scheme = "http" ∨ u.scheme = "https" →
      env.parseIP u.hostname = none →
      env.lookupIP u.hostname = .ok [] →
      ∃ m, Adapters.isSafeURL env rawURL = .error m) := by
  have hgs : ∀ u : URLParts, u.scheme = "http" ∨ u.scheme = "https" → u.scheme ≠ "gs" := by
    rintro u (h | h) <;> simp [h]
  have hok : ∀ u : URLParts, u.scheme = "http" ∨ u.scheme = "https" →
      ¬ (u.scheme ≠ "http" ∧ u.scheme ≠ "https") := by
    rintro u (h | h) <;> simp [h]
  refine ⟨?_, ?_, ?_, ?_⟩
  · intro env rawURL u ips hparse hscheme hlookup
    unfold GeneratorUtil.IsSafeURL
    rw [hparse]
    simp only [hgs u hscheme, hok u hscheme, ite_false, hlookup]
    cases hf : ips.find? (fun ip => ip.restricted) with
    | none =>
      simp only [hf]
      constructor
      · intro _ ip hip
        have hres := List.find?_eq_none.mp hf ip hip
        simpa using hres
      · intro _
        trivial
    | some ip0 =>
      have hmem := List.mem_of_find?_eq_some hf
      have hres := List.find?_some hf
      simp only [hf]
      constructor
      · intro h
        exact absurd h (by simp)
      · intro hall
        exact absurd (hall ip0 hmem) (by simp [hres])
  · intro env rawURL u msg hparse hscheme hlookup
    unfold GeneratorUtil.IsSafeURL
    rw [hparse]
    simp only [hgs u hscheme, hok u hscheme, ite_false, hlookup]
    exact ⟨_, rfl⟩
  · intro env rawURL u ip rest hparse hscheme hpip hlookup
    unfold Adapters.isSafeURL
    rw [hparse]
    simp only [hok u hscheme, ite_false, hpip, hlookup]
    cases hr : ip.restricted with
    | true => simp [hr]
    | false => simp [hr]
  · intro env rawURL u hparse hscheme hpip hlookup
    unfold Adapters.isSafeURL
    rw [hparse]
    simp only [hok u hscheme, ite_false, hpip, hlookup]
    exact ⟨_, rfl⟩

/-- C1 witness: the generator's validator accepts an all-public
resolution and the adapters' validator accepts when the first resolved
address is public, in the concrete `envResolve`/`envMulti` worlds. -/
theorem c1_witness :
    GeneratorUtil.IsSafeURL envResolve "http://pub.example/a" = .ok true ∧
    Adapters.isSafeURL envMulti "http://multi.example/a.png" = .ok true :=
  ⟨(c1_amended.1 envResolve "http://pub.example/a" ⟨"http", "pub.example"⟩
      [⟨93, 184, 216, 34⟩] rfl (Or.inl rfl) rfl).mpr (by decide),
   (c1_amended.2.2.1 envMulti "http://multi.example/a.png" ⟨"http", "multi.example"⟩
      ⟨93, 184, 216, 34⟩ [⟨127, 0, 0, 1⟩] rfl (Or.inl rfl) rfl rfl).mpr (by decide)⟩

/-- C10: a cache entry of an unexpected dynamic type — not a byte slice
in the raw-bytes namespace, not a string in the handle namespace — is
treated as a miss by every guarded type assertion: each part-preparation
variant then equals its normal validate-then-fetch continuation, so the
foreign value is neither returned nor fatal. -/
theorem c10_wrong_typed_cache_entry_is_miss :
    (∀ (env : Env) (now ttl : Nat) (c : Cache) (url : String) (v : GoVal),
      cacheGet c now url = some v → v.isBytes = false →
      Adapters.PrepareImagePart env now ttl c url =
        Adapters.prepareFetchPath env now ttl c url) ∧
    (∀ (env : Env) (now ttl : Nat) (c : Cache) (url : String) (v : GoVal),
      cacheGet c now url = some v → v.isBytes = false →
      GenCore.PrepareImagePart env now ttl (some c) url =
        GenCore.prepareFetchPath env now ttl (some c) url) ∧
    (∀ (env : Env) (now ttl : Nat) (c : Cache) (rawURL : String) (v w : GoVal),
      GeneratorUtil.IsSafeURL env rawURL = .ok true →
      cacheGet c now (cacheKeyFileAPIURI ++ rawURL) = some v → v.isStr = false →
      cacheGet c now rawURL = some w → w.isBytes = false →
      FileCore.prepareImagePart env now ttl (some c) rawURL =
        FileCore.prepareFetchPath env now ttl (some c) rawURL) := by
  refine ⟨?_, ?_, ?_⟩
  · intro env now ttl c url v hget hv
    unfold Adapters.PrepareImagePart
    rw [hget]
    cases v with
    | bytes b => simp [GoVal.isBytes] at hv
    | str s => rfl
    | other => rfl
  · intro env now ttl c url v hget hv
    unfold GenCore.PrepareImagePart
    dsimp only
    rw [hget]
    cases v with
    | bytes b => simp [GoVal.isBytes] at hv
    | str s => rfl
    | other => rfl
  · intro env now ttl c rawURL v w hsafe hgetv hv hgetw hw
    unfold FileCore.prepareImagePart
    rw [hsafe]
    dsimp only
    rw [hgetv]
    have hstep : FileCore.prepareInlineStep env now ttl (some c) rawURL =
        FileCore.prepareFetchPath env now ttl (some c) rawURL := by
      unfold FileCore.prepareInlineStep
      dsimp only
      rw [hgetw]
      cases w with
      | bytes b => simp [GoVal.isBytes] at hw
      | str s => rfl
      | other => rfl
    cases v with
    | bytes b => exact hstep
    | str s => simp [GoVal.isStr] at hv
    | other => exact hstep

/-- C10 witness: the three equalities at concrete wrong-typed cache
states (a string in the raw-bytes namespace, a foreign value in the
handle namespace). -/
theorem c10_witness :
    Adapters.PrepareImagePart envImg 0 10 [("u", GoVal.str "boo", 10)] "u" =
      Adapters.prepareFetchPath envImg 0 10 [("u", GoVal.str "boo", 10)] "u" ∧
    GenCore.PrepareImagePart envImg 0 10 (some [("u", GoVal.str "boo", 10)]) "u" =
      GenCore.prepareFetchPath envImg 0 10 (some [("u", GoVal.str "boo", 10)]) "u" ∧
    FileCore.prepareImagePart envImg 0 10
      (some [(cacheKeyFileAPIURI ++ "http://img.example/a", GoVal.other, 10),
             ("http://img.example/a", GoVal.str "x", 10)]) "http://img.example/a" =
      FileCore.prepareFetchPath envImg 0 10
        (some [(cacheKeyFileAPIURI ++ "http://img.example/a", GoVal.other, 10),
               ("http://img.example/a", GoVal.str "x", 10)]) "http://img.example/a" :=
  ⟨c10_wrong_typed_cache_entry_is_miss.1 envImg 0 10 _ "u" (GoVal.str "boo") rfl rfl,
   c10_wrong_typed_cache_entry_is_miss.2.1 envImg 0 10 _ "u" (GoVal.str "boo") rfl rfl,
   c10_wrong_typed_cache_entry_is_miss.2.2 envImg 0 10 _ "http://img.example/a"
     GoVal.other (GoVal.str "x") rfl rfl rfl rfl rfl⟩

/-- Helper: a parsed outcome of the generator's `ParseToResponse` echoes
the seed it was given. -/
theorem parseToResponse_usedSeed (resp : Option GeminiResponse) (seed : Int)
    (out : ImageOutput) (h : GenCore.ParseToResponse resp seed = .parsed out) :
    out.usedSeed = seed := by
  unfold GenCore.ParseToResponse at h
  cases resp with
  | none => simp at h
  | some r =>
    obtain ⟨rr⟩ := r
    cases rr with
    | none => simp at h
    | some raw =>
      obtain ⟨cands, pf⟩ := raw
      cases cands with
      | nil => simp at h
      | cons candidate rest =>
        by_cases hc : candidate.finishReason ≠ finishReasonStop ∧
            candidate.finishReason ≠ finishReasonUnspecified
        · simp [hc] at h
        · simp only [if_neg hc] at h
          cases hct : candidate.content with
          | none => simp [hct] at h
          | some parts =>
            simp only [hct] at h
            cases hfs : parts.findSome? (fun p => p.inlineData) with
            | none => simp [hfs] at h
            | some b =>
              simp only [hfs] at h
              cases h
              rfl

/-- C7: whenever `GenerateMangaPanel` returns a result and the requested
int64 seed is present, the echoed `UsedSeed` equals the requested seed
exactly (the result path uses `dereferenceSeed`, never the narrowed wire
value), while the outbound options carry the seed narrowed to int32 by
`seedToPtrInt32`. -/
theorem c7_seed_echoed_losslessly
    (env : Env)
    (gen : List GenPart → PanelGen.ImageOptions → Except String (Option GeminiResponse))
    (now ttl : Nat) (cache cache' : Option Cache)
    (req : PanelGen.ImageGenerationRequest) (s : Int) (res : ImageResponse)
    (hseed : req.seed = some s)
    (hrun : PanelGen.GenerateMangaPanel env gen now ttl cache req = (.ok res, cache')) :
    res.usedSeed = s ∧ (PanelGen.panelOptions req).seed = some (wrapInt32 s) := by
  constructor
  · unfold PanelGen.GenerateMangaPanel at hrun
    cases hpp : PanelGen.panelParts env now ttl cache req with
    | mk parts cache1 =>
      rw [hpp] at hrun
      cases hgen : gen parts (PanelGen.panelOptions req) with
      | error e => simp [hgen] at hrun
      | ok resp =>
        simp only [hgen] at hrun
        cases hparse : GenCore.ParseToResponse resp (dereferenceSeed req.seed) with
        | crashed => simp [hparse] at hrun
        | failed e => simp [hparse] at hrun
        | parsed out =>
          simp only [hparse] at hrun
          have hecho := parseToResponse_usedSeed resp (dereferenceSeed req.seed) out hparse
          have hres : res.usedSeed = out.usedSeed := by
            cases hrun
            rfl
          rw [hres, hecho, hseed]
          rfl
  · simp [PanelGen.panelOptions, seedToPtrInt32, hseed]

/-- C7 witness: the maximum int64 seed 9223372036854775807 is echoed
losslessly on the result path while the outbound wire seed is the
two's-complement truncation -1. -/
theorem c7_witness :
    ({ data := [9], mimeType := "image/png", usedSeed := 9223372036854775807 } :
      ImageResponse).usedSeed = 9223372036854775807 ∧
    seedToPtrInt32 (some 9223372036854775807) = some (-1) := by
  have H := c7_seed_echoed_losslessly envDefault
    (fun _ _ => .ok (some ⟨some ⟨[⟨"STOP",
      some [{ text := "", inlineData := some ⟨"image/png", [9]⟩, fileData := none }]⟩],
      none⟩⟩))
    0 0 none none
    { prompt := "p", referenceURL := "", aspectRatio := "1:1",
      seed := some 9223372036854775807 }
    9223372036854775807
    { data := [9], mimeType := "image/png", usedSeed := 9223372036854775807 }
    rfl (by decide)
  exact ⟨H.1, H.2.trans (by decide)⟩

/-- Helper: the deletion-name cache key never collides with the handle
cache key for the same source URI. -/
theorem nameKey_ne_uriKey (s : String) :
    cacheKeyFileAPIName ++ s ≠ cacheKeyFileAPIURI ++ s := by
  intro h
  have hl := congrArg String.length h
  rw [String.length_append, String.length_append] at hl
  have h13 : cacheKeyFileAPIName.length = 13 := rfl
  have h12 : cacheKeyFileAPIURI.length = 12 := rfl
  rw [h13, h12] at hl
  omega

/-- C3: if `UploadFile` misses the handle cache and succeeds, it performs
exactly one remote upload, and a second call within the TTL window hits
the handle cache: it returns the identical handle URI, performs no
fetch, compression, or upload (empty effect trace), and leaves the cache
unchanged. -/
theorem c3_upload_idempotent_within_ttl
    (env : Env) (t1 t2 ttl : Nat) (c : Cache) (c1 : Option Cache)
    (fileURI uri : String) (effs : List Effect)
    (hmiss : cacheGet c t1 (cacheKeyFileAPIURI ++ fileURI) = none)
    (hrun : FileCore.UploadFile env t1 ttl (some c) fileURI = (.ok uri, c1, effs))
    (ht : t2 < t1 + ttl) :
    countUploads effs = 1 ∧
    FileCore.UploadFile env t2 ttl c1 fileURI = (.ok uri, c1, []) := by
  unfold FileCore.UploadFile at hrun
  simp only [hmiss] at hrun
  cases hfetch : FileCore.fetchImageData env fileURI with
  | error e => simp [hfetch] at hrun
  | ok data =>
    simp only [hfetch] at hrun
    cases hup : env.uploadRemote (FileCore.compressOrOriginal env data)
        (env.detectContentType (FileCore.compressOrOriginal env data))
        (env.baseName fileURI) with
    | error e => simp [hup] at hrun
    | ok pr =>
      obtain ⟨uri', fileName⟩ := pr
      simp only [hup, Prod.mk.injEq, Except.ok.injEq] at hrun
      obtain ⟨huri, hc1, heffs⟩ := hrun
      subst huri
      constructor
      · rw [← heffs]
        rfl
      · rw [← hc1]
        unfold FileCore.UploadFile
        have hhit : cacheGet
            (cacheSet (cacheSet c t1 ttl (cacheKeyFileAPIURI ++ fileURI) (.str uri')) t1 ttl
              (cacheKeyFileAPIName ++ fileURI) (.str fileName))
            t2 (cacheKeyFileAPIURI ++ fileURI) = some (.str uri') := by
          simp [cacheSet, cacheGet, nameKey_ne_uriKey fileURI, ht]
        simp only [hhit]

/-- C3 witness: the concrete two-call scenario in the `envUpload` world —
one upload in the first call's trace, and a cache-hit second call at
time 5 (inside the TTL 10) with an empty effect trace and the identical
handle URI. -/
theorem c3_witness :
    countUploads [Effect.fetch "https://x/i.png", Effect.compressStep,
      Effect.uploadRemote "image/png" "https://x/i.png"] = 1 ∧
    FileCore.UploadFile envUpload 5 10
      (some [(cacheKeyFileAPIName ++ "https://x/i.png", GoVal.str "files/abc-name", 10),
             (cacheKeyFileAPIURI ++ "https://x/i.png", GoVal.str "https://files/abc", 10)])
      "https://x/i.png" =
      (.ok "https://files/abc",
       some [(cacheKeyFileAPIName ++ "https://x/i.png", GoVal.str "files/abc-name", 10),
             (cacheKeyFileAPIURI ++ "https://x/i.png", GoVal.str "https://files/abc", 10)],
       []) :=
  c3_upload_idempotent_within_ttl envUpload 0 5 10 []
    (some [(cacheKeyFileAPIName ++ "https://x/i.png", GoVal.str "files/abc-name", 10),
           (cacheKeyFileAPIURI ++ "https://x/i.png", GoVal.str "https://files/abc", 10)])
    "https://x/i.png" "https://files/abc"
    [Effect.fetch "https://x/i.png", Effect.compressStep,
     Effect.uploadRemote "image/png" "https://x/i.png"]
    rfl rfl (by omega)

/-- Helper: writing one key leaves reads of any other key unchanged. -/
theorem cacheGet_set_ne (c : Cache) (now t ttl : Nat) (k key : String) (v : GoVal)
    (hne : k ≠ key) : cacheGet (cacheSet c now ttl k v) t key = cacheGet c t key := by
  simp [cacheSet, cacheGet, hne]

/-- Helper: on a miss, the adapters' `PrepareImagePart` is its
validate-then-fetch continuation. -/
theorem prepare_eq_fetchPath_of_miss (env : Env) (now ttl : Nat) (c : Cache)
    (url : String) (hmiss : cacheGet c now url = none) :
    Adapters.PrepareImagePart env now ttl c url =
      Adapters.prepareFetchPath env now ttl c url := by
  unfold Adapters.PrepareImagePart
  rw [hmiss]

/-- Helper: a reference that validates, fetches and sniffs as an image
takes the fetch path to an inline part plus a cache write. -/
theorem goodRef_fetchPath (env : Env) (now ttl : Nat) (c : Cache) (u : String)
    (bts : Bytes)
    (hsafe : Adapters.isSafeURL env u = .ok true)
    (hfetch : env.fetchBytes u = .ok bts)
    (hsniff : goHasPrefix (env.detectContentType bts) "image/" = true) :
    Adapters.prepareFetchPath env now ttl c u =
      (some { text := "", inlineData := some ⟨env.detectContentType bts, bts⟩,
              fileData := none },
       cacheSet c now ttl u (.bytes bts)) := by
  simp [Adapters.prepareFetchPath, hsafe, hfetch, Adapters.ToPart, hsniff]

/-- Helper: a reference that the validator rejects, or whose fetch fails,
takes the fetch path to no part and an unchanged cache. -/
theorem badRef_fetchPath (env : Env) (now ttl : Nat) (c : Cache) (u : String)
    (h : (∃ m, Adapters.isSafeURL env u = .error m) ∨ ∃ m, env.fetchBytes u = .error m) :
    Adapters.prepareFetchPath env now ttl c u = (none, c) := by
  rcases h with ⟨m, hm⟩ | ⟨m, hm⟩
  · simp [Adapters.prepareFetchPath, hm]
  · cases hsafe : Adapters.isSafeURL env u with
    | error e => simp [Adapters.prepareFetchPath, hsafe]
    | ok bv =>
      cases bv with
      | false => simp [Adapters.prepareFetchPath, hsafe]
      | true => simp [Adapters.prepareFetchPath, hsafe, hm]

/-- Helper: the behaviour of the assembly loop over a labelled reference
list starting from a cache with no entries for the listed references:
it emits one sniffed inline-image part per good reference, none for bad
ones, and writes cache entries only under good references. -/
theorem assembleParts_spec (env : Env) (now ttl : Nat) (gb : String → Bool) :
    ∀ (urls : List String) (c : Cache),
      urls.Nodup →
      (∀ u ∈ urls, u ≠ "") →
      (∀ u ∈ urls, cacheGet c now u = none) →
      (∀ u ∈ urls, gb u = true →
        Adapters.isSafeURL env u = .ok true ∧
        ∃ b, env.fetchBytes u = .ok b ∧
          goHasPrefix (env.detectContentType b) "image/" = true) →
      (∀ u ∈ urls, gb u = false →
        (∃ m, Adapters.isSafeURL env u = .error m) ∨
        ∃ m, env.fetchBytes u = .error m) →
      (Adapters.assembleParts env now ttl c urls).1.length = (urls.filter gb).length ∧
      (∀ p ∈ (Adapters.assembleParts env now ttl c urls).1,
        ∃ b, p.inlineData = some b ∧ goHasPrefix b.mimeType "image/" = true) ∧
      (∀ k, k ∉ urls.filter gb →
        cacheGet (Adapters.assembleParts env now ttl c urls).2 now k =
          cacheGet c now k) := by
  intro urls
  induction urls with
  | nil =>
    intro c _ _ _ _ _
    exact ⟨rfl, by simp [Adapters.assembleParts], fun k _ => rfl⟩
  | cons u rest ih =>
    intro c hnd hne hmiss hgood hbad
    have hu_ne : u ≠ "" := hne u (by simp)
    have hnd' : rest.Nodup := (List.nodup_cons.mp hnd).2
    have hu_notin : u ∉ rest := (List.nodup_cons.mp hnd).1
    have hmiss_u : cacheGet c now u = none := hmiss u (by simp)
    have hprep := prepare_eq_fetchPath_of_miss env now ttl c u hmiss_u
    cases hgb : gb u with
    | true =>
      obtain ⟨hsafe, b, hfetch, hsniff⟩ := hgood u (by simp) hgb
      have hfp := goodRef_fetchPath env now ttl c u b hsafe hfetch hsniff
      have hmiss' : ∀ u' ∈ rest, cacheGet (cacheSet c now ttl u (.bytes b)) now u' = none := by
        intro u' hu'
        rw [cacheGet_set_ne c now now ttl u u' (.bytes b)
          (fun he => hu_notin (he ▸ hu'))]
        exact hmiss u' (by simp [hu'])
      obtain ⟨ihlen, ihparts, ihcache⟩ := ih (cacheSet c now ttl u (.bytes b)) hnd'
        (fun u' hu' => hne u' (by simp [hu']))
        hmiss'
        (fun u' hu' h => hgood u' (by simp [hu']) h)
        (fun u' hu' h => hbad u' (by simp [hu']) h)
      cases hres : Adapters.assembleParts env now ttl (cacheSet c now ttl u (.bytes b)) rest with
      | mk ps cfin =>
        have hstep : Adapters.assembleParts env now ttl c (u :: rest) =
            ({ text := "", inlineData := some ⟨env.detectContentType b, b⟩,
               fileData := none } :: ps, cfin) := by
          unfold Adapters.assembleParts
          simp only [hu_ne, ite_false, if_neg, hprep, hfp, hres]
        rw [hres] at ihlen ihparts ihcache
        refine ⟨?_, ?_, ?_⟩
        · rw [hstep]
          simp [List.filter_cons, hgb, ihlen]
        · rw [hstep]
          intro p hp
          rcases List.mem_cons.mp hp with hp | hp
          · subst hp
            exact ⟨⟨env.detectContentType b, b⟩, rfl, hsniff⟩
          · exact ihparts p hp
        · rw [hstep]
          intro k hk
          simp [List.filter_cons, hgb, not_or] at hk
          obtain ⟨hku, hkrest⟩ := hk
          have hknot : k ∉ List.filter gb rest := by
            intro hmem
            have h1 := (List.mem_filter.mp hmem).1
            have h2 := (List.mem_filter.mp hmem).2
            rw [hkrest h1] at h2
            simp at h2
          rw [ihcache k hknot]
          exact cacheGet_set_ne c now now ttl u k (.bytes b) (fun he => hku he.symm)
    | false =>
      have hfp := badRef_fetchPath env now ttl c u (hbad u (by simp) hgb)
      obtain ⟨ihlen, ihparts, ihcache⟩ := ih c hnd'
        (fun u' hu' => hne u' (by simp [hu']))
        (fun u' hu' => hmiss u' (by simp [hu']))
        (fun u' hu' h => hgood u' (by simp [hu']) h)
        (fun u' hu' h => hbad u' (by simp [hu']) h)
      have hstep : Adapters.assembleParts env now ttl c (u :: rest) =
          Adapters.assembleParts env now ttl c rest := by
        simp only [Adapters.assembleParts, hu_ne, ite_false, if_neg, hprep, hfp]
      refine ⟨?_, ?_, ?_⟩
      · rw [hstep, ihlen]
        simp [List.filter_cons, hgb]
      · rw [hstep]
        exact ihparts
      · rw [hstep]
        intro k hk
        refine ihcache k ?_
        simpa [List.filter_cons, hgb] using hk

/-- C6: over any reference list in which exactly one reference fails
(validator rejection or fetch failure) and the rest validate, fetch and
sniff as images, `GenerateMangaPage`'s assembly starting from an empty
cache produces the text part first plus one inline-image part per good
reference — N parts in all for N references, with no error channel —
and the failed reference is dropped silently with no cache entry ever
written under it. -/
theorem c6_single_bad_reference_soft_skipped
    (env : Env) (now ttl : Nat) (pre post : List String) (bad prompt : String)
    (hnd : (pre ++ bad :: post).Nodup)
    (hne : ∀ u ∈ pre ++ bad :: post, u ≠ "")
    (hgood : ∀ u ∈ pre ++ post,
      Adapters.isSafeURL env u = .ok true ∧
      ∃ b, env.fetchBytes u = .ok b ∧
        goHasPrefix (env.detectContentType b) "image/" = true)
    (hbad : (∃ m, Adapters.isSafeURL env bad = .error m) ∨
      ∃ m, env.fetchBytes bad = .error m) :
    (Adapters.mangaPageParts env now ttl [] prompt (pre ++ bad :: post)).1.length =
      (pre ++ bad :: post).length ∧
    (Adapters.mangaPageParts env now ttl [] prompt (pre ++ bad :: post)).1.head? =
      some { text := prompt, inlineData := none, fileData := none } ∧
    (∀ p ∈ (Adapters.mangaPageParts env now ttl [] prompt (pre ++ bad :: post)).1.tail,
      ∃ b, p.inlineData = some b ∧ goHasPrefix b.mimeType "image/" = true) ∧
    cacheGet (Adapters.mangaPageParts env now ttl [] prompt (pre ++ bad :: post)).2
      now bad = none := by
  obtain ⟨hpre_nd, hcons_nd, hdisj⟩ := List.nodup_append.mp hnd
  have hbadpre : bad ∉ pre := fun hmem => hdisj hmem (by simp)
  have hbadpost : bad ∉ post := (List.nodup_cons.mp hcons_nd).1
  have hfilter : (pre ++ bad :: post).filter (fun u => u != bad) = pre ++ post := by
    rw [List.filter_append, List.filter_cons]
    have h1 : List.filter (fun u => u != bad) pre = pre := by
      apply List.filter_eq_self.mpr
      intro a ha
      have hne' : a ≠ bad := fun he => hbadpre (he ▸ ha)
      simpa using hne'
    have h2 : List.filter (fun u => u != bad) post = post := by
      apply List.filter_eq_self.mpr
      intro a ha
      have hne' : a ≠ bad := fun he => hbadpost (he ▸ ha)
      simpa using hne'
    simp [h1, h2]
  have hgood' : ∀ u ∈ pre ++ bad :: post, (u != bad) = true →
      Adapters.isSafeURL env u = .ok true ∧
      ∃ b, env.fetchBytes u = .ok b ∧
        goHasPrefix (env.detectContentType b) "image/" = true := by
    intro u hu hgbu
    have hune : u ≠ bad := by simpa using hgbu
    refine hgood u ?_
    rcases List.mem_append.mp hu with h | h
    · exact List.mem_append.mpr (Or.inl h)
    · rcases List.mem_cons.mp h with he | h
      · exact absurd he hune
      · exact List.mem_append.mpr (Or.inr h)
  have hbad' : ∀ u ∈ pre ++ bad :: post, (u != bad) = false →
      (∃ m, Adapters.isSafeURL env u = .error m) ∨
      ∃ m, env.fetchBytes u = .error m := by
    intro u _ hgbu
    have : u = bad := by simpa using hgbu
    subst this
    exact hbad
  obtain ⟨hlen, hparts, hcache⟩ := assembleParts_spec env now ttl (fun u => u != bad)
    (pre ++ bad :: post) [] hnd hne (fun _ _ => rfl) hgood' hbad'
  cases hres : Adapters.assembleParts env now ttl [] (pre ++ bad :: post) with
  | mk imgs cfin =>
    rw [hres] at hlen hparts hcache
    have hmp : Adapters.mangaPageParts env now ttl [] prompt (pre ++ bad :: post) =
        ({ text := prompt, inlineData := none, fileData := none } :: imgs, cfin) := by
      simp [Adapters.mangaPageParts, hres]
    rw [hfilter] at hlen
    refine ⟨?_, ?_, ?_, ?_⟩
    · rw [hmp]
      simp only [List.length_cons, hlen]
      simp [List.length_append]
      omega
    · rw [hmp]
      rfl
    · rw [hmp]
      intro p hp
      exact hparts p hp
    · rw [hmp]
      have hnotin : bad ∉ (pre ++ bad :: post).filter (fun u => u != bad) := by
        rw [hfilter]
        intro hmem
        rcases List.mem_append.mp hmem with h | h
        · exact hbadpre h
        · exact hbadpost h
      exact (hcache bad hnotin).trans rfl

/-- C6 witness: three references of which the middle one fails to parse;
assembly yields three parts (text plus two images) and writes no cache
entry for the failed reference. -/
theorem c6_witness :
    (Adapters.mangaPageParts envC6 0 10 [] "p"
      ["http://a.example/1", "http://b.example/2", "http://c.example/3"]).1.length = 3 ∧
    cacheGet (Adapters.mangaPageParts envC6 0 10 [] "p"
      ["http://a.example/1", "http://b.example/2", "http://c.example/3"]).2 0
      "http://b.example/2" = none := by
  have H := c6_single_bad_reference_soft_skipped envC6 0 10
    ["http://a.example/1"] ["http://c.example/3"] "http://b.example/2" "p"
    (by decide) (by decide)
    (by
      intro u hu
      simp only [List.mem_append, List.mem_singleton] at hu
      rcases hu with hu | hu <;> subst hu <;> exact ⟨rfl, [3], rfl, by decide⟩)
    (Or.inl ⟨"URL parse failure", rfl⟩)
  exact ⟨H.1, H.2.2.2⟩

end Theorems
